import Mathlib

/-!
Shallow embedding of the SafeBackup utility (src/main.rs): a path validator,
a path resolver, and three file operations (backup / restore / delete) over an
explicit filesystem state, each appending a log entry on success.

Strings are modelled as byte sequences (`List Nat`), matching Rust's `&str`
viewed through `as_bytes()`; all bytes the program inspects are ASCII, where
the codepoint and the UTF-8 byte coincide.  The filesystem is a map from
resolved paths to optional byte contents plus an append-only log.  An `Env`
supplies the wall-clock time and oracles deciding whether the underlying OS
calls (`fs::copy`, `fs::remove_file`, the log append) succeed, so that I/O
failures outside the program's control are representable.
-/

namespace SafeBackup

/-- Byte strings: Rust `&str` / `String` contents as their byte sequence. -/
abbrev Str := List Nat

/-- File contents as raw bytes. -/
abbrev Bytes := List Nat

/-- Decides whether `pre` is a leading run of `l` (Rust `str::starts_with`
on byte sequences). -/
def isPrefSeq : Str → Str → Bool
  | [], _ => true
  | _ :: _, [] => false
  | a :: t1, b :: t2 => a == b && isPrefSeq t1 t2

/-- Decides whether `needle` occurs contiguously inside `hay` (Rust
`str::contains` with a literal needle, as byte-level substring search). -/
def containsSeq (needle : Str) : Str → Bool
  | [] => decide (needle = [])
  | b :: t => isPrefSeq needle (b :: t) || containsSeq needle t

/-- Rust `char::is_ascii_alphabetic` on a byte value. -/
def is_ascii_alphabetic (b : Nat) : Bool :=
  (65 ≤ b && b ≤ 90) || (97 ≤ b && b ≤ 122)

/-- The drive-letter test from `is_safe_path_component`: first byte an ASCII
letter, second byte `:` (58), third byte `\` (92) or `/` (47).  The source
only evaluates it under the guard `name.len() > 2`. -/
def drive_rooted : Str → Bool
  | b0 :: b1 :: b2 :: _ => is_ascii_alphabetic b0 && b1 == 58 && (b2 == 92 || b2 == 47)
  | _ => false

/-- The validator from src/main.rs: rejects names containing `..` (bytes
46,46), names starting with `/` (byte 47), and drive-rooted names such as
`C:\` when longer than two bytes; accepts everything else. -/
def is_safe_path_component (name : Str) : Bool :=
  if containsSeq [46, 46] name then false
  else if name.head? == some 47 then false
  else if 2 < name.length then
    if drive_rooted name then false else true
  else true

/-- The `io::ErrorKind` values this program produces or propagates. -/
inductive ErrorKind where
  | invalidInput
  | notFound
  | other
deriving DecidableEq, Repr

/-- Filesystem state: contents of each path (`none` = absent) plus the
append-only activity log as `(timestamp, message)` records. -/
structure FS where
  files : Str → Option Bytes
  log : List (Nat × Str)

/-- Environment: current clock reading and oracles for whether the raw OS
operations succeed (permissions, disk full, ...). -/
structure Env where
  time : Nat
  copyOk : Str → Str → Bool
  removeOk : Str → Bool
  logOk : Bool

/-- `Path::join` for a validated relative component: base, separator, name. -/
def joinPath (base name : Str) : Str := base ++ [47] ++ name

/-- `resolved_path_in_base` from src/main.rs: re-validate, then join. -/
def resolved_path_in_base (base user_name : Str) : Except ErrorKind Str :=
  if !is_safe_path_component user_name then Except.error ErrorKind.invalidInput
  else Except.ok (joinPath base user_name)

/-- `fs::copy(src, dst)`: fails with `NotFound` when the source is absent,
fails with the environment's I/O error when the copy itself fails, and
otherwise overwrites `dst` with the source bytes, returning the byte count. -/
def copy_file (env : Env) (fs : FS) (src dst : Str) : Except ErrorKind Nat × FS :=
  match fs.files src with
  | none => (Except.error ErrorKind.notFound, fs)
  | some c =>
    if env.copyOk src dst then
      (Except.ok c.length, { fs with files := fun p => if p = dst then some c else fs.files p })
    else (Except.error ErrorKind.other, fs)

/-- `append_log` from src/main.rs: appends one timestamped line; a failing
append is swallowed (the state is simply left unchanged). -/
def append_log (env : Env) (fs : FS) (entry : Str) : FS :=
  if env.logOk then { fs with log := fs.log ++ [(env.time, entry)] } else fs

/-- ASCII text as its byte sequence, for the literal fragments of log lines. -/
def strBytes (s : String) : Str := s.data.map Char.toNat

/-- The `.bak` suffix as bytes. -/
def dotBak : Str := [46, 98, 97, 107]

/-- The log message `backup <filename> -> <bak_name>`. -/
def backup_log_msg (filename bak_name : Str) : Str :=
  strBytes ("backup ") ++ filename ++ strBytes (" -> ") ++ bak_name

/-- The log message `restore <filename> <- <bak_name>`. -/
def restore_log_msg (filename bak_name : Str) : Str :=
  strBytes ("restore ") ++ filename ++ strBytes (" <- ") ++ bak_name

/-- The log message `delete <filename>`. -/
def delete_log_msg (filename : Str) : Str :=
  strBytes ("delete ") ++ filename

/-- `backup_file` from src/main.rs: resolve the filename, require the source
to exist, resolve `<filename>.bak`, copy source over backup, then log. -/
def backup_file (env : Env) (fs : FS) (base filename : Str) :
    Except ErrorKind Str × FS :=
  match resolved_path_in_base base filename with
  | Except.error e => (Except.error e, fs)
  | Except.ok src =>
    if (fs.files src).isNone then (Except.error ErrorKind.notFound, fs)
    else
      match resolved_path_in_base base (filename ++ dotBak) with
      | Except.error e => (Except.error e, fs)
      | Except.ok dst =>
        match copy_file env fs src dst with
        | (Except.error e, fs1) => (Except.error e, fs1)
        | (Except.ok _, fs1) =>
          (Except.ok dst, append_log env fs1 (backup_log_msg filename (filename ++ dotBak)))

/-- `restore_file` from src/main.rs: resolve `<filename>.bak`, require it to
exist, resolve the destination, copy backup over destination, then log. -/
def restore_file (env : Env) (fs : FS) (base filename : Str) :
    Except ErrorKind Str × FS :=
  match resolved_path_in_base base (filename ++ dotBak) with
  | Except.error e => (Except.error e, fs)
  | Except.ok bak =>
    if (fs.files bak).isNone then (Except.error ErrorKind.notFound, fs)
    else
      match resolved_path_in_base base filename with
      | Except.error e => (Except.error e, fs)
      | Except.ok dst =>
        match copy_file env fs bak dst with
        | (Except.error e, fs1) => (Except.error e, fs1)
        | (Except.ok _, fs1) =>
          (Except.ok dst, append_log env fs1 (restore_log_msg filename (filename ++ dotBak)))

/-- `delete_file` from src/main.rs: resolve the filename, require the file to
exist, remove it (`fs::remove_file`), then log. -/
def delete_file (env : Env) (fs : FS) (base filename : Str) :
    Except ErrorKind Unit × FS :=
  match resolved_path_in_base base filename with
  | Except.error e => (Except.error e, fs)
  | Except.ok p =>
    if (fs.files p).isNone then (Except.error ErrorKind.notFound, fs)
    else if env.removeOk p then
      (Except.ok (),
        append_log env { fs with files := fun q => if q = p then none else fs.files q }
          (delete_log_msg filename))
    else (Except.error ErrorKind.other, fs)

/-- External mutation of a file's content, as performed between `backup` and
`restore` in the round-trip scenario (not an operation of the program). -/
def overwrite (fs : FS) (p : Str) (c : Bytes) : FS :=
  { fs with files := fun q => if q = p then some c else fs.files q }

/-- An environment in which every OS call succeeds, at clock reading 0. -/
def envOk : Env := ⟨0, fun _ _ => true, fun _ => true, true⟩

/-- The empty filesystem: no files, empty log. -/
def fsEmpty : FS := ⟨fun _ => none, []⟩

/-- The prefix test computes `List.IsPrefix`. -/
theorem isPrefSeq_iff (n : Str) : ∀ h : Str, isPrefSeq n h = true ↔ n <+: h := by
  induction n with
  | nil => intro h; simp [isPrefSeq, List.nil_prefix]
  | cons a t ih =>
    intro h
    cases h with
    | nil => simp [isPrefSeq]
    | cons b t2 => simp [isPrefSeq, List.cons_prefix_cons, ih t2, Bool.and_eq_true, beq_iff_eq]

/-- The substring test computes `List.IsInfix`. -/
theorem containsSeq_iff (n : Str) : ∀ h : Str, containsSeq n h = true ↔ n <:+: h := by
  intro h
  induction h with
  | nil => simp [containsSeq, List.infix_nil]
  | cons b t ih => simp [containsSeq, Bool.or_eq_true, isPrefSeq_iff, ih, List.infix_cons_iff]

/-- Unfolding of the validator into its three rejection conditions. -/
theorem is_safe_iff (n : Str) :
    is_safe_path_component n = true ↔
      containsSeq [46, 46] n = false ∧ n.head? ≠ some 47 ∧
        (2 < n.length → drive_rooted n = false) := by
  unfold is_safe_path_component
  split_ifs <;> simp_all

/-- Appending `.bak` to a name free of `..` whose last byte is not `.`
cannot create an occurrence of `..`. -/
theorem ddot_not_infix_append (n : Str) :
    ¬ ([46, 46] : Str) <:+: n → n.getLast? ≠ some 46 →
      ¬ ([46, 46] : Str) <:+: (n ++ dotBak) := by
  induction n with
  | nil => intro _ _ habs; exact absurd habs (by decide)
  | cons x t ih =>
    intro h1 h2 habs
    rw [List.cons_append, List.infix_cons_iff] at habs
    rcases habs with hp | hi
    · rw [List.cons_prefix_cons] at hp
      obtain ⟨hx, hp2⟩ := hp
      cases t with
      | nil => exact h2 (by rw [← hx]; rfl)
      | cons y t2 =>
        rw [List.cons_append, List.cons_prefix_cons] at hp2
        obtain ⟨hy, _⟩ := hp2
        exact h1 ⟨[], t2, by rw [← hx, ← hy]; rfl⟩
    · cases t with
      | nil => exact absurd hi (by decide)
      | cons y t2 =>
        refine ih ?_ ?_ hi
        · intro hsub; exact h1 (List.infix_cons hsub)
        · rw [List.getLast?_cons_cons] at h2; exact h2

/-- Appending `.bak` cannot create a leading `/`. -/
theorem head_append_dotBak (n : Str) (h : n.head? ≠ some 47) :
    (n ++ dotBak).head? ≠ some 47 := by
  cases n with
  | nil => decide
  | cons x t => simpa using h

/-- Appending `.bak` cannot create the drive-letter pattern. -/
theorem drive_rooted_append_dotBak (n : Str)
    (h : 2 < n.length → drive_rooted n = false) :
    drive_rooted (n ++ dotBak) = false := by
  match n with
  | [] => decide
  | [x] => simp [dotBak, drive_rooted]
  | [x, y] => simp [dotBak, drive_rooted]
  | x :: y :: z :: t => exact h (by simp)

/-- A validated name whose last byte is not `.` (46) stays validated after
the `.bak` suffix is appended. -/
theorem bak_name_safe (n : Str) (h1 : is_safe_path_component n = true)
    (h2 : n.getLast? ≠ some 46) :
    is_safe_path_component (n ++ dotBak) = true := by
  rw [is_safe_iff] at h1 ⊢
  obtain ⟨ha, hb, hc⟩ := h1
  refine ⟨?_, head_append_dotBak n hb, fun _ => drive_rooted_append_dotBak n hc⟩
  have hni : ¬ ([46, 46] : Str) <:+: n := by
    rw [← containsSeq_iff]; simp [ha]
  have hout := ddot_not_infix_append n hni h2
  rw [← containsSeq_iff] at hout
  simpa using hout

/-- A name and its `.bak` companion resolve to distinct paths. -/
theorem joinPath_ne_bak (base filename : Str) :
    joinPath base filename ≠ joinPath base (filename ++ dotBak) := by
  intro h
  have h2 := List.append_cancel_left h
  have h3 := congrArg List.length h2
  rw [List.length_append] at h3
  simp [dotBak] at h3

/-- Appending a log line never touches file contents. -/
theorem append_log_files (env : Env) (fs : FS) (e : Str) :
    (append_log env fs e).files = fs.files := by
  unfold append_log; split <;> rfl

/-- Backup branch: validation failure. -/
theorem backup_file_not_safe (env : Env) (fs : FS) (base filename : Str)
    (h : is_safe_path_component filename = false) :
    backup_file env fs base filename = (Except.error ErrorKind.invalidInput, fs) := by
  simp [backup_file, resolved_path_in_base, h]

/-- Backup branch: source absent. -/
theorem backup_file_missing (env : Env) (fs : FS) (base filename : Str)
    (hsafe : is_safe_path_component filename = true)
    (hmiss : fs.files (joinPath base filename) = none) :
    backup_file env fs base filename = (Except.error ErrorKind.notFound, fs) := by
  simp [backup_file, resolved_path_in_base, hsafe, hmiss]

/-- Backup branch: backup name fails validation. -/
theorem backup_file_bak_not_safe (env : Env) (fs : FS) (base filename : Str) (c : Bytes)
    (hsafe : is_safe_path_component filename = true)
    (hfile : fs.files (joinPath base filename) = some c)
    (hbak : is_safe_path_component (filename ++ dotBak) = false) :
    backup_file env fs base filename = (Except.error ErrorKind.invalidInput, fs) := by
  simp [backup_file, resolved_path_in_base, hsafe, hfile, hbak]

/-- Backup branch: the copy itself fails. -/
theorem backup_file_copy_fail (env : Env) (fs : FS) (base filename : Str) (c : Bytes)
    (hsafe : is_safe_path_component filename = true)
    (hbaksafe : is_safe_path_component (filename ++ dotBak) = true)
    (hfile : fs.files (joinPath base filename) = some c)
    (hcopy : env.copyOk (joinPath base filename) (joinPath base (filename ++ dotBak)) = false) :
    backup_file env fs base filename = (Except.error ErrorKind.other, fs) := by
  simp [backup_file, resolved_path_in_base, hsafe, hbaksafe, copy_file, hfile, hcopy]

/-- Backup branch: success — write the backup, then log. -/
theorem backup_file_success (env : Env) (fs : FS) (base filename : Str) (c : Bytes)
    (hsafe : is_safe_path_component filename = true)
    (hbaksafe : is_safe_path_component (filename ++ dotBak) = true)
    (hfile : fs.files (joinPath base filename) = some c)
    (hcopy : env.copyOk (joinPath base filename) (joinPath base (filename ++ dotBak)) = true) :
    backup_file env fs base filename =
      (Except.ok (joinPath base (filename ++ dotBak)),
        append_log env
          { fs with files := fun p =>
              if p = joinPath base (filename ++ dotBak) then some c else fs.files p }
          (backup_log_msg filename (filename ++ dotBak))) := by
  simp [backup_file, resolved_path_in_base, hsafe, hbaksafe, copy_file, hfile, hcopy]

/-- Restore branch: backup name fails validation. -/
theorem restore_file_bak_not_safe (env : Env) (fs : FS) (base filename : Str)
    (hbak : is_safe_path_component (filename ++ dotBak) = false) :
    restore_file env fs base filename = (Except.error ErrorKind.invalidInput, fs) := by
  simp [restore_file, resolved_path_in_base, hbak]

/-- Restore branch: backup file absent. -/
theorem restore_file_missing (env : Env) (fs : FS) (base filename : Str)
    (hbaksafe : is_safe_path_component (filename ++ dotBak) = true)
    (hmiss : fs.files (joinPath base (filename ++ dotBak)) = none) :
    restore_file env fs base filename = (Except.error ErrorKind.notFound, fs) := by
  simp [restore_file, resolved_path_in_base, hbaksafe, hmiss]

/-- Restore branch: destination name fails validation. -/
theorem restore_file_not_safe (env : Env) (fs : FS) (base filename : Str) (c : Bytes)
    (hbaksafe : is_safe_path_component (filename ++ dotBak) = true)
    (hbakfile : fs.files (joinPath base (filename ++ dotBak)) = some c)
    (h : is_safe_path_component filename = false) :
    restore_file env fs base filename = (Except.error ErrorKind.invalidInput, fs) := by
  simp [restore_file, resolved_path_in_base, hbaksafe, hbakfile, h]

/-- Restore branch: the copy itself fails. -/
theorem restore_file_copy_fail (env : Env) (fs : FS) (base filename : Str) (c : Bytes)
    (hbaksafe : is_safe_path_component (filename ++ dotBak) = true)
    (hbakfile : fs.files (joinPath base (filename ++ dotBak)) = some c)
    (hsafe : is_safe_path_component filename = true)
    (hcopy : env.copyOk (joinPath base (filename ++ dotBak)) (joinPath base filename) = false) :
    restore_file env fs base filename = (Except.error ErrorKind.other, fs) := by
  simp [restore_file, resolved_path_in_base, hsafe, hbaksafe, copy_file, hbakfile, hcopy]

/-- Restore branch: success — write the destination, then log. -/
theorem restore_file_success (env : Env) (fs : FS) (base filename : Str) (c : Bytes)
    (hbaksafe : is_safe_path_component (filename ++ dotBak) = true)
    (hbakfile : fs.files (joinPath base (filename ++ dotBak)) = some c)
    (hsafe : is_safe_path_component filename = true)
    (hcopy : env.copyOk (joinPath base (filename ++ dotBak)) (joinPath base filename) = true) :
    restore_file env fs base filename =
      (Except.ok (joinPath base filename),
        append_log env
          { fs with files := fun p =>
              if p = joinPath base filename then some c else fs.files p }
          (restore_log_msg filename (filename ++ dotBak))) := by
  simp [restore_file, resolved_path_in_base, hsafe, hbaksafe, copy_file, hbakfile, hcopy]

/-- Delete branch: validation failure. -/
theorem delete_file_not_safe (env : Env) (fs : FS) (base filename : Str)
    (h : is_safe_path_component filename = false) :
    delete_file env fs base filename = (Except.error ErrorKind.invalidInput, fs) := by
  simp [delete_file, resolved_path_in_base, h]

/-- Delete branch: file absent. -/
theorem delete_file_missing (env : Env) (fs : FS) (base filename : Str)
    (hsafe : is_safe_path_component filename = true)
    (hmiss : fs.files (joinPath base filename) = none) :
    delete_file env fs base filename = (Except.error ErrorKind.notFound, fs) := by
  simp [delete_file, resolved_path_in_base, hsafe, hmiss]

/-- Delete branch: the removal itself fails. -/
theorem delete_file_remove_fail (env : Env) (fs : FS) (base filename : Str) (c : Bytes)
    (hsafe : is_safe_path_component filename = true)
    (hfile : fs.files (joinPath base filename) = some c)
    (hrm : env.removeOk (joinPath base filename) = false) :
    delete_file env fs base filename = (Except.error ErrorKind.other, fs) := by
  simp [delete_file, resolved_path_in_base, hsafe, hfile, hrm]

/-- Delete branch: success — remove the file, then log. -/
theorem delete_file_success (env : Env) (fs : FS) (base filename : Str) (c : Bytes)
    (hsafe : is_safe_path_component filename = true)
    (hfile : fs.files (joinPath base filename) = some c)
    (hrm : env.removeOk (joinPath base filename) = true) :
    delete_file env fs base filename =
      (Except.ok (),
        append_log env
          { fs with files := fun q => if q = joinPath base filename then none else fs.files q }
          (delete_log_msg filename)) := by
  simp [delete_file, resolved_path_in_base, hsafe, hfile, hrm]

/-- Every error return of backup leaves the whole state unchanged. -/
theorem backup_file_error_state (env : Env) (fs : FS) (base filename : Str) (e : ErrorKind)
    (h : (backup_file env fs base filename).1 = Except.error e) :
    (backup_file env fs base filename).2 = fs := by
  by_cases h1 : is_safe_path_component filename = true
  · cases hfc : fs.files (joinPath base filename) with
    | none => rw [backup_file_missing env fs base filename h1 hfc]
    | some c =>
      by_cases h2 : is_safe_path_component (filename ++ dotBak) = true
      · by_cases h3 :
          env.copyOk (joinPath base filename) (joinPath base (filename ++ dotBak)) = true
        · rw [backup_file_success env fs base filename c h1 h2 hfc h3] at h
          simp at h
        · rw [backup_file_copy_fail env fs base filename c h1 h2 hfc (by simpa using h3)]
      · rw [backup_file_bak_not_safe env fs base filename c h1 hfc (by simpa using h2)]
  · rw [backup_file_not_safe env fs base filename (by simpa using h1)]

/-- Every error return of restore leaves the whole state unchanged. -/
theorem restore_file_error_state (env : Env) (fs : FS) (base filename : Str) (e : ErrorKind)
    (h : (restore_file env fs base filename).1 = Except.error e) :
    (restore_file env fs base filename).2 = fs := by
  by_cases h2 : is_safe_path_component (filename ++ dotBak) = true
  · cases hfc : fs.files (joinPath base (filename ++ dotBak)) with
    | none => rw [restore_file_missing env fs base filename h2 hfc]
    | some c =>
      by_cases h1 : is_safe_path_component filename = true
      · by_cases h3 :
          env.copyOk (joinPath base (filename ++ dotBak)) (joinPath base filename) = true
        · rw [restore_file_success env fs base filename c h2 hfc h1 h3] at h
          simp at h
        · rw [restore_file_copy_fail env fs base filename c h2 hfc h1 (by simpa using h3)]
      · rw [restore_file_not_safe env fs base filename c h2 hfc (by simpa using h1)]
  · rw [restore_file_bak_not_safe env fs base filename (by simpa using h2)]

/-- Every error return of delete leaves the whole state unchanged. -/
theorem delete_file_error_state (env : Env) (fs : FS) (base filename : Str) (e : ErrorKind)
    (h : (delete_file env fs base filename).1 = Except.error e) :
    (delete_file env fs base filename).2 = fs := by
  by_cases h1 : is_safe_path_component filename = true
  · cases hfc : fs.files (joinPath base filename) with
    | none => rw [delete_file_missing env fs base filename h1 hfc]
    | some c =>
      by_cases h3 : env.removeOk (joinPath base filename) = true
      · rw [delete_file_success env fs base filename c h1 hfc h3] at h
        simp at h
      · rw [delete_file_remove_fail env fs base filename c h1 hfc (by simpa using h3)]
  · rw [delete_file_not_safe env fs base filename (by simpa using h1)]

/-- C1 counterexample: the single byte `.` (46) is accepted by the validator,
yet its backup name `..bak` is rejected, and backup of an existing file under
that name actually returns `InvalidInput` — the branch the claim calls
unreachable is reached. -/
theorem c1_counterexample :
    is_safe_path_component [46] = true ∧
      is_safe_path_component ([46] ++ dotBak) = false ∧
      (backup_file envOk (overwrite fsEmpty (joinPath [] [46]) [1]) [] [46]).1 =
        Except.error ErrorKind.invalidInput :=
  ⟨rfl, rfl, rfl⟩

/-- C1 (amended): for every filename accepted by the validator whose last
byte is not `.` (46), the backup name `filename ++ ".bak"` is also accepted,
so resolving it cannot return `InvalidInput`. -/
theorem c1_backup_name_safe (filename : Str)
    (h1 : is_safe_path_component filename = true)
    (h2 : filename.getLast? ≠ some 46) :
    is_safe_path_component (filename ++ dotBak) = true ∧
      ∀ base : Str, resolved_path_in_base base (filename ++ dotBak) =
        Except.ok (joinPath base (filename ++ dotBak)) := by
  have hs := bak_name_safe filename h1 h2
  exact ⟨hs, fun base => by simp [resolved_path_in_base, hs]⟩

/-- C1 witness: instantiates the amended claim at the filename `a` (byte 97). -/
theorem c1_backup_name_safe_witness :
    is_safe_path_component ([97] ++ dotBak) = true ∧
      ∀ base : Str, resolved_path_in_base base ([97] ++ dotBak) =
        Except.ok (joinPath base ([97] ++ dotBak)) :=
  c1_backup_name_safe [97] (by decide) (by decide)

/-- C2 counterexample: the filename `..` fails validation, yet backup fails
with `InvalidInput`, which is not the `NotFound` kind the claim requires. -/
theorem c2_counterexample :
    is_safe_path_component [46, 46] = false ∧
      (backup_file envOk fsEmpty [] [46, 46]).1 = Except.error ErrorKind.invalidInput ∧
      (Except.error ErrorKind.invalidInput : Except ErrorKind Str) ≠
        Except.error ErrorKind.notFound := by
  refine ⟨rfl, rfl, ?_⟩
  intro h
  simp at h

/-- C2 (amended): for every filename that fails validation, the backup
operation fails with error kind `InvalidInput` and leaves the state
unchanged. -/
theorem c2_backup_invalid_input (env : Env) (fs : FS) (base filename : Str)
    (h : is_safe_path_component filename = false) :
    backup_file env fs base filename = (Except.error ErrorKind.invalidInput, fs) :=
  backup_file_not_safe env fs base filename h

/-- C2 witness: instantiates the amended claim at the filename `..`. -/
theorem c2_backup_invalid_input_witness :
    backup_file envOk fsEmpty [] [46, 46] = (Except.error ErrorKind.invalidInput, fsEmpty) :=
  c2_backup_invalid_input envOk fsEmpty [] [46, 46] (by decide)

/-- C3 counterexample: the two-byte string `\a` (92, 97) begins with the
backslash path separator yet the validator accepts it. -/
theorem c3_counterexample :
    ([92, 97] : Str).head? = some 92 ∧ is_safe_path_component [92, 97] = true :=
  ⟨rfl, rfl⟩

/-- C3 (amended): for every string that begins with the forward slash `/`
(byte 47), the validator returns false; the leading-backslash case is not
rejected by the code. -/
theorem c3_leading_slash_unsafe (name : Str) (h : name.head? = some 47) :
    is_safe_path_component name = false := by
  unfold is_safe_path_component
  split_ifs <;> simp_all

/-- C3 witness: instantiates the amended claim at the string `/`. -/
theorem c3_leading_slash_unsafe_witness : is_safe_path_component [47] = false :=
  c3_leading_slash_unsafe [47] rfl

/-- C5: deleting a validated filename that names no existing file returns
`NotFound` and leaves the filesystem and the log unchanged. -/
theorem c5_delete_missing (env : Env) (fs : FS) (base filename : Str)
    (hsafe : is_safe_path_component filename = true)
    (hmiss : fs.files (joinPath base filename) = none) :
    delete_file env fs base filename = (Except.error ErrorKind.notFound, fs) :=
  delete_file_missing env fs base filename hsafe hmiss

/-- C5 witness: instantiates the claim at filename `a` on the empty
filesystem. -/
theorem c5_delete_missing_witness :
    delete_file envOk fsEmpty [] [97] = (Except.error ErrorKind.notFound, fsEmpty) :=
  c5_delete_missing envOk fsEmpty [] [97] (by decide) rfl

/-- C6 counterexample: the filename `.` is validated and has no backup file,
yet restore returns `InvalidInput` (its backup name `..bak` fails
validation), not `NotFound`. -/
theorem c6_counterexample :
    is_safe_path_component [46] = true ∧
      fsEmpty.files (joinPath [] ([46] ++ dotBak)) = none ∧
      (restore_file envOk fsEmpty [] [46]).1 = Except.error ErrorKind.invalidInput ∧
      (Except.error ErrorKind.invalidInput : Except ErrorKind Str) ≠
        Except.error ErrorKind.notFound := by
  refine ⟨rfl, rfl, rfl, ?_⟩
  intro h
  simp at h

/-- C6 (amended): for every validated filename whose backup name also passes
validation and whose backup file is absent, restore returns `NotFound` and
leaves the whole state — in particular any existing destination file —
unchanged. -/
theorem c6_restore_no_backup (env : Env) (fs : FS) (base filename : Str)
    (_hsafe : is_safe_path_component filename = true)
    (hbaksafe : is_safe_path_component (filename ++ dotBak) = true)
    (hmiss : fs.files (joinPath base (filename ++ dotBak)) = none) :
    restore_file env fs base filename = (Except.error ErrorKind.notFound, fs) :=
  restore_file_missing env fs base filename hbaksafe hmiss

/-- C6 witness: instantiates the amended claim at filename `a` on the empty
filesystem. -/
theorem c6_restore_no_backup_witness :
    restore_file envOk fsEmpty [] [97] = (Except.error ErrorKind.notFound, fsEmpty) :=
  c6_restore_no_backup envOk fsEmpty [] [97] (by decide) (by decide) rfl

/-- C8: every string containing the two-byte substring `..` anywhere is
rejected by the validator. -/
theorem c8_dotdot_unsafe (name : Str) (h : ([46, 46] : Str) <:+: name) :
    is_safe_path_component name = false := by
  rw [← containsSeq_iff] at h
  simp [is_safe_path_component, h]

/-- C8 witness: instantiates the claim at the string `a..b`. -/
theorem c8_dotdot_unsafe_witness : is_safe_path_component [97, 46, 46, 98] = false :=
  c8_dotdot_unsafe [97, 46, 46, 98] (by decide)

/-- C10: the validator accepts the empty string, and resolving it against any
base succeeds, producing the base joined with the empty component. -/
theorem c10_empty_accepted (base : Str) :
    is_safe_path_component [] = true ∧
      resolved_path_in_base base [] = Except.ok (joinPath base []) :=
  ⟨rfl, rfl⟩

/-- C4 counterexample: filename `.` is validated and names an existing file
with content `[1]`, yet backup silently fails (`InvalidInput` on `..bak`), so
after overwriting with `[2]` and restoring, the file holds `[2]`, not the
original `[1]`. -/
theorem c4_counterexample :
    is_safe_path_component [46] = true ∧
      (overwrite fsEmpty (joinPath [] [46]) [1]).files (joinPath [] [46]) = some [1] ∧
      ((restore_file envOk
          (overwrite ((backup_file envOk (overwrite fsEmpty (joinPath [] [46]) [1])
              [] [46]).2) (joinPath [] [46]) [2])
          [] [46]).2).files (joinPath [] [46]) = some [2] ∧
      ([2] : Bytes) ≠ [1] := by
  refine ⟨rfl, rfl, rfl, ?_⟩
  decide

/-- C4 (amended): for every existing file with content `c` under a validated
filename whose backup name also passes validation, and with the underlying
copies succeeding, backup followed by overwriting the original with any `c2`
followed by restore leaves the original file with content exactly `c`. -/
theorem c4_round_trip (env : Env) (fs : FS) (base filename : Str) (c c2 : Bytes)
    (hsafe : is_safe_path_component filename = true)
    (hbaksafe : is_safe_path_component (filename ++ dotBak) = true)
    (hfile : fs.files (joinPath base filename) = some c)
    (hcopy1 : env.copyOk (joinPath base filename) (joinPath base (filename ++ dotBak)) = true)
    (hcopy2 : env.copyOk (joinPath base (filename ++ dotBak)) (joinPath base filename) = true) :
    ((restore_file env
        (overwrite ((backup_file env fs base filename).2) (joinPath base filename) c2)
        base filename).2).files (joinPath base filename) = some c := by
  have hne := joinPath_ne_bak base filename
  have hb := backup_file_success env fs base filename c hsafe hbaksafe hfile hcopy1
  have hs2 : (backup_file env fs base filename).2 =
      append_log env
        { fs with files := fun p =>
            if p = joinPath base (filename ++ dotBak) then some c else fs.files p }
        (backup_log_msg filename (filename ++ dotBak)) := by
    rw [hb]
  rw [hs2]
  have hbakfile :
      (overwrite
        (append_log env
          { fs with files := fun p =>
              if p = joinPath base (filename ++ dotBak) then some c else fs.files p }
          (backup_log_msg filename (filename ++ dotBak)))
        (joinPath base filename) c2).files (joinPath base (filename ++ dotBak)) = some c := by
    simp [overwrite, append_log_files, Ne.symm hne]
  have hr := restore_file_success env
    (overwrite
      (append_log env
        { fs with files := fun p =>
            if p = joinPath base (filename ++ dotBak) then some c else fs.files p }
        (backup_log_msg filename (filename ++ dotBak)))
      (joinPath base filename) c2)
    base filename c hbaksafe hbakfile hsafe hcopy2
  rw [hr]
  simp [append_log_files]

/-- C4 witness: instantiates the amended round trip at filename `a`, content
`[1]`, overwrite `[2]`. -/
theorem c4_round_trip_witness :
    ((restore_file envOk
        (overwrite ((backup_file envOk (overwrite fsEmpty (joinPath [] [97]) [1])
            [] [97]).2) (joinPath [] [97]) [2])
        [] [97]).2).files (joinPath [] [97]) = some [1] :=
  c4_round_trip envOk (overwrite fsEmpty (joinPath [] [97]) [1]) [] [97] [1] [2]
    (by decide) (by decide) rfl rfl rfl

/-- C7: calling backup twice in succession on the same unchanged existing
file leaves the backup file with exactly the bytes a single call produces. -/
theorem c7_backup_idempotent (env : Env) (fs : FS) (base filename : Str) (c : Bytes)
    (hfile : fs.files (joinPath base filename) = some c) :
    ((backup_file env ((backup_file env fs base filename).2) base filename).2).files
        (joinPath base (filename ++ dotBak)) =
      ((backup_file env fs base filename).2).files (joinPath base (filename ++ dotBak)) := by
  have hne := joinPath_ne_bak base filename
  by_cases h1 : is_safe_path_component filename = true
  · by_cases h2 : is_safe_path_component (filename ++ dotBak) = true
    · by_cases h3 :
        env.copyOk (joinPath base filename) (joinPath base (filename ++ dotBak)) = true
      · have hb1 := backup_file_success env fs base filename c h1 h2 hfile h3
        have hfile2 :
            (append_log env
              { fs with files := fun p =>
                  if p = joinPath base (filename ++ dotBak) then some c else fs.files p }
              (backup_log_msg filename (filename ++ dotBak))).files
              (joinPath base filename) = some c := by
          simp [append_log_files, hne, hfile]
        have hb2 := backup_file_success env
          (append_log env
            { fs with files := fun p =>
                if p = joinPath base (filename ++ dotBak) then some c else fs.files p }
            (backup_log_msg filename (filename ++ dotBak)))
          base filename c h1 h2 hfile2 h3
        rw [hb1]
        simp only []
        rw [hb2]
        simp [append_log_files]
      · have hb1 := backup_file_copy_fail env fs base filename c h1 h2 hfile
          (by simpa using h3)
        simp [hb1]
    · have hb1 := backup_file_bak_not_safe env fs base filename c h1 hfile
        (by simpa using h2)
      simp [hb1]
  · have hb1 := backup_file_not_safe env fs base filename (by simpa using h1)
    simp [hb1]

/-- C7 witness: instantiates the claim at filename `a` with content `[5, 6]`. -/
theorem c7_backup_idempotent_witness :
    ((backup_file envOk ((backup_file envOk (overwrite fsEmpty (joinPath [] [97]) [5, 6])
        [] [97]).2) [] [97]).2).files (joinPath [] ([97] ++ dotBak)) =
      ((backup_file envOk (overwrite fsEmpty (joinPath [] [97]) [5, 6])
        [] [97]).2).files (joinPath [] ([97] ++ dotBak)) :=
  c7_backup_idempotent envOk (overwrite fsEmpty (joinPath [] [97]) [5, 6]) [] [97] [5, 6] rfl

/-- C9: each of backup, restore and delete appends its log entry only after
its filesystem action has succeeded — on every error return the log is
unchanged. -/
theorem c9_no_log_on_error (env : Env) (fs : FS) (base filename : Str) :
    (∀ e, (backup_file env fs base filename).1 = Except.error e →
        ((backup_file env fs base filename).2).log = fs.log) ∧
      (∀ e, (restore_file env fs base filename).1 = Except.error e →
        ((restore_file env fs base filename).2).log = fs.log) ∧
      (∀ e, (delete_file env fs base filename).1 = Except.error e →
        ((delete_file env fs base filename).2).log = fs.log) := by
  refine ⟨fun e h => ?_, fun e h => ?_, fun e h => ?_⟩
  · rw [backup_file_error_state env fs base filename e h]
  · rw [restore_file_error_state env fs base filename e h]
  · rw [delete_file_error_state env fs base filename e h]

/-- C9 witness: instantiates the claim at the rejected filename `..`, where
all three operations return errors and the log stays empty. -/
theorem c9_no_log_on_error_witness :
    ((backup_file envOk fsEmpty [] [46, 46]).2).log = fsEmpty.log ∧
      ((restore_file envOk fsEmpty [] [46, 46]).2).log = fsEmpty.log ∧
      ((delete_file envOk fsEmpty [] [46, 46]).2).log = fsEmpty.log :=
  ⟨(c9_no_log_on_error envOk fsEmpty [] [46, 46]).1 ErrorKind.invalidInput rfl,
   (c9_no_log_on_error envOk fsEmpty [] [46, 46]).2.1 ErrorKind.invalidInput rfl,
   (c9_no_log_on_error envOk fsEmpty [] [46, 46]).2.2 ErrorKind.invalidInput rfl⟩

end SafeBackup
